import Mathlib

/-!
Shallow embedding of the demi_epoll shim (a Berkeley-sockets + epoll facade
over the token-based demikernel backend) and proofs about the claims of its
specification.

The embedding follows the C sources:
  lib/src/impls.h, lib/src/impls.c      (descriptor ranges, available_events,
                                         check_and_schedule_evs, dpoll_pwait_impl)
  lib/src/socket_wrapper.{h,c}          (socket state machine)
  lib/src/internals/buffer.h            (slab with embedded free list)
  lib/src/internals/list.h              (intrusive doubly linked list)
  lib/src/wrappers.c                    (public POSIX-like wrappers)
  epoll_wrapper.{h,c}                   (epoll item container, ready list)
  utils.c                               (SGA marshalling)

Machine integers are modelled as Nat/Int; event masks are uint32 values and
the places where the C code masks with a 32-bit complement use the explicit
32-bit constant. Backend calls (demi_wait, demi_pop, ...) are modelled by
explicit oracle parameters: a fresh queue token for each submission and a
`Probe` describing the outcome of a zero-timeout wait.
-/

namespace DemiEpoll

/-! ## Descriptor namespace (impls.h) -/

/-- `#define DPOLL_EPOLL_OFFSET ((int)1 << 16)` -/
def DPOLL_EPOLL_OFFSET : Int := 65536

/-- `#define DPOLL_SOCKET_OFFSET (DPOLL_EPOLL_OFFSET + 1024)` -/
def DPOLL_SOCKET_OFFSET : Int := DPOLL_EPOLL_OFFSET + 1024

/-- `qd_is_dpoll`: the handle is in one of the two bypass ranges. -/
def qd_is_dpoll (qd : Int) : Bool := qd ≥ DPOLL_EPOLL_OFFSET

/-- `qd_is_epoll`: the handle is in the bypass-epoll range. -/
def qd_is_epoll (qd : Int) : Bool :=
  qd ≥ DPOLL_EPOLL_OFFSET ∧ qd < DPOLL_SOCKET_OFFSET

/-- `get_epoll_fd` (after its assert): index into the epoll slab. -/
def get_epoll_fd (qd : Int) : Int := qd - DPOLL_EPOLL_OFFSET

/-- `get_socket_fd` (after its assert): index into the socket slab. -/
def get_socket_fd (qd : Int) : Int := qd - DPOLL_SOCKET_OFFSET

/-! ## Event mask constants (sys/epoll.h values used by the code) -/

def EPOLLIN : Nat := 1
def EPOLLOUT : Nat := 4

/-- The 32-bit value of `~(EPOLLIN | EPOLLOUT)`, i.e. `0xFFFFFFFA`. -/
def NOT_IN_OUT : Nat := 4294967290

/-- `verify_events` (impls.h): the C function aborts via GIVE_UP when
`events & ~(EPOLLIN | EPOLLOUT)` is nonzero; this embedding returns
`false` in exactly that case and callers map `false` to the abort. -/
def verify_events (events : Nat) : Bool := events &&& NOT_IN_OUT == 0

/-! ## Scatter-gather arrays (demi_sgarray_t) and marshalling (utils.c)

An SGA is a list of segments, each segment a list of bytes;
`sga_numsegs` is the number of segments. -/

structure Sga where
  segs : List (List Nat)
  deriving DecidableEq

/-- `sga_numsegs` field of `demi_sgarray_t`. -/
def Sga.numsegs (s : Sga) : Nat := s.segs.length

/-- `sga_is_empty` (socket_wrapper.c): no segments. -/
def sga_is_empty (s : Sga) : Bool := s.numsegs == 0

/-- Total byte length of the SGA (sum of the segment lengths). -/
def Sga.total (s : Sga) : Nat := (s.segs.map List.length).sum

/-- Loop of `copy_sga_into_buf` (utils.c): walk the segments, skipping
`cur_off` bytes, copying at most `remaining` bytes; returns the copied
bytes and the C return value (`true` when the loop ran past the last
segment, `false` when `remaining` hit zero inside the loop). -/
def copy_sga_loop : List (List Nat) → Nat → Nat → List Nat × Bool
  | [], _, _ => ([], true)
  | seg :: rest, remaining, cur_off =>
    if cur_off ≥ seg.length then
      copy_sga_loop rest remaining (cur_off - seg.length)
    else
      -- to_copy = MIN(remaining, seg_remaining)
      if remaining - min remaining (seg.length - cur_off) = 0 then
        ((seg.drop cur_off).take (min remaining (seg.length - cur_off)), false)
      else
        ((seg.drop cur_off).take (min remaining (seg.length - cur_off)) ++
           (copy_sga_loop rest
             (remaining - min remaining (seg.length - cur_off)) 0).1,
         (copy_sga_loop rest
           (remaining - min remaining (seg.length - cur_off)) 0).2)

/-- `copy_sga_into_buf(buf, buf_len, sga, off)` (utils.c): returns the
copied bytes, the advanced offset (`*offset += copied`) and the bool
result (whether the loop ran off the end of the segment list). -/
def copy_sga_into_buf (buf_len : Nat) (sga : Sga) (offset : Nat) :
    List Nat × Nat × Bool :=
  let (bytes, flag) := copy_sga_loop sga.segs buf_len offset
  (bytes, offset + bytes.length, flag)

/-- Loop of `copy_buf_into_sga` (utils.c): fill the segments in order with
the bytes of `buf` starting at index `copied`; `none` models the
`assert(seg <= sga->sga_numsegs)` failure when the segments cannot hold
the buffer. Returns the final `copied` count and the overwritten segments. -/
def copy_buf_loop (buf : List Nat) (copied : Nat) (segs : List (List Nat)) :
    Option (Nat × List (List Nat)) :=
  if copied < buf.length then
    match segs with
    | [] => none
    | seg :: rest =>
      let diff := min (buf.length - copied) seg.length
      let seg2 := ((buf.drop copied).take diff) ++ seg.drop diff
      match copy_buf_loop buf (copied + diff) rest with
      | none => none
      | some (c, r) => some (c, seg2 :: r)
  else some (copied, segs)

/-- `copy_buf_into_sga(buf, len, sga)` (utils.c): returns bytes copied and
the filled SGA; `none` is the capacity assert. -/
def copy_buf_into_sga (buf : List Nat) (sga : Sga) : Option (Nat × Sga) :=
  match copy_buf_loop buf 0 sga.segs with
  | none => none
  | some (c, segs) => some (c, ⟨segs⟩)

/-! ## Timeouts (utils.c) -/

structure Timespec where
  sec : Int
  nsec : Int
  deriving DecidableEq

/-- `ms_timeout_to_timespec` (utils.c): negative timeouts produce the zero
timespec; otherwise split milliseconds into seconds and nanoseconds. -/
def ms_timeout_to_timespec (ms : Int) : Timespec :=
  if ms < 0 then ⟨0, 0⟩
  else ⟨ms / 1000, (ms % 1000) * 1000000⟩

/-! ## Socket state machine (socket_wrapper.h / socket_wrapper.c)

The C socket holds a send slot and a union of a recv slot and an accept
slot; both union members start with the same `struct maybe_prefix`
header `{tok, pending}`, so the token and pending flag of the recv and
accept views alias each other. The embedding keeps one shared base
(`raBase`) for the union and separate payload views (`recvElem`,
`acceptElem`), which matches the layout; the active view is selected by
`recv_off = -1` (accepting mode), as in the source. -/

structure MaybeBase where
  tok : Nat
  pending : Bool
  deriving DecidableEq

/-- `demi_accept_result_t`: accepted queue descriptor (or the `-1`
sentinel installed by `accept_free`) and the peer address. -/
structure AcceptResult where
  qd : Int
  addr : Nat
  deriving DecidableEq

structure Socket where
  qd : Nat
  addr : Nat
  sendBase : MaybeBase
  sendElem : Sga
  recv_off : Int
  raBase : MaybeBase
  recvElem : Sga
  acceptElem : AcceptResult
  deriving DecidableEq

/-- `socket_is_accepting`: mode sentinel, `recv_off == -1`. -/
def socket_is_accepting (soc : Socket) : Bool := soc.recv_off == -1

/-- `accept_is_empty` (socket_wrapper.c): `acc->elem.qd == -1`. -/
def accept_is_empty (a : AcceptResult) : Bool := a.qd == -1

/-- `socket_can_write`: send SGA empty and no in-flight push. -/
def socket_can_write (soc : Socket) : Bool :=
  sga_is_empty soc.sendElem && !soc.sendBase.pending

/-- `socket_can_read`: no in-flight pop and a buffered recv SGA. -/
def socket_can_read (soc : Socket) : Bool :=
  !soc.raBase.pending && !sga_is_empty soc.recvElem

/-- `socket_can_accept`: no in-flight accept and an unconsumed result. -/
def socket_can_accept (soc : Socket) : Bool :=
  !soc.raBase.pending && !accept_is_empty soc.acceptElem

/-! ## Backend completions (demi/types.h) -/

inductive DemiOpcode where
  | invalid | push | pop | accept | connect | close | failed
  deriving DecidableEq

/-- `demi_qresult_t`. The C `qr_value` is a union of an SGA and an accept
result; the embedding carries both views. -/
structure Qresult where
  opcode : DemiOpcode
  qd : Nat
  qt : Nat
  ret : Int
  sga : Sga
  ares : AcceptResult
  deriving DecidableEq

/-- Outcome of a zero-timeout `demi_wait` probe on an outstanding token:
timed out, or completed with a result (`demi_wait` returned 0). The C
code aborts on any other return value. -/
inductive Probe where
  | timedOut
  | ok (res : Qresult)
  deriving DecidableEq

/-- Result of `maybe_read` / `maybe_write`: would-block (the C functions
return -1 with errno = EWOULDBLOCK) or success carrying the bytes
delivered to (resp. taken from) the caller. -/
inductive CallResult where
  | wouldBlock
  | ok (bytes : List Nat)
  deriving DecidableEq

/-- Result of `maybe_accept`: would-block or the consumed accept payload
(queue descriptor and peer address). -/
inductive AcceptOut where
  | wouldBlock
  | res (qd : Int) (addr : Nat)
  deriving DecidableEq

/-- `socket_handle_event` (socket_wrapper.c): route a harvested completion
into the matching slot, install the payload, clear `pending`. `none`
models the asserts (unexpected opcode, wrong mode). For a push
completion the code stores `res->qr_value.sga` into the send slot; it
does not free the SGA that was pushed. -/
def socket_handle_event (soc : Socket) (res : Qresult) : Option Socket :=
  match res.opcode with
  | .accept =>
    if socket_is_accepting soc then
      some { soc with raBase := ⟨soc.raBase.tok, false⟩, acceptElem := res.ares }
    else none
  | .pop =>
    if socket_is_accepting soc then none
    else
      some { soc with raBase := ⟨soc.raBase.tok, false⟩, recv_off := 0,
                      recvElem := res.sga }
  | .push =>
    some { soc with sendBase := ⟨soc.sendBase.tok, false⟩, sendElem := res.sga }
  | _ => none

/-- Modelled from the spec: the backend `sga_alloc(size)` operation (§6)
is implemented by the demikernel library, which is not under src/ (only
its C header is present). The spec describes it as allocating a
scatter-gather buffer of the requested size; it is modelled as a single
zero-filled segment of that size. -/
def demi_sgaalloc (size : Nat) : Sga := ⟨[List.replicate size 0]⟩

/-- `sga_new` (socket_wrapper.c) allocates and asserts the result is not
empty; the allocation itself is `demi_sgaalloc`. -/
def sga_new (size : Nat) : Sga := demi_sgaalloc size

/-- `maybe_read` (socket_wrapper.c). `fresh` is the token returned by a
`demi_pop` submission, `probe` the outcome of the zero-timeout
`demi_wait` on an in-flight pop. `none` models the asserts. The offset
arithmetic is the connected-mode one (`recv_off ≥ 0`; the caller
`dpoll_read_impl` asserts `recv_off > -1`). -/
def maybe_read (soc : Socket) (len : Nat) (fresh : Nat) (probe : Probe) :
    Option (Socket × CallResult) :=
  if sga_is_empty soc.recvElem && !soc.raBase.pending then
    some ({ soc with raBase := ⟨fresh, true⟩ }, .wouldBlock)
  else
    match (if soc.raBase.pending then
            match probe with
            | .timedOut => none
            | .ok res =>
              some { soc with raBase := ⟨soc.raBase.tok, false⟩,
                              recv_off := 0, recvElem := res.sga }
           else some soc : Option Socket) with
    | none => some (soc, .wouldBlock)
    | some s1 =>
      if sga_is_empty s1.recvElem then none
      else
        let off := s1.recv_off.toNat
        let (bytes, off2, emptied) := copy_sga_into_buf len s1.recvElem off
        let s2 :=
          if emptied then
            { s1 with recv_off := (off2 : Int), recvElem := ⟨[]⟩,
                      raBase := ⟨s1.raBase.tok, false⟩ }
          else { s1 with recv_off := (off2 : Int) }
        some (s2, .ok bytes)

/-- Second half of `maybe_write` (socket_wrapper.c): allocate an SGA of
the write size, copy the buffer in, submit the push and mark the slot
pending. Reaching this point with a buffered send SGA is the fatal
"unreachable state" (`none`), as is an empty allocation (`sga_new`
asserts) or insufficient capacity. -/
def maybe_write_push (soc : Socket) (buf : List Nat) (fresh : Nat) :
    Option (Socket × CallResult) :=
  if sga_is_empty soc.sendElem then
    let sga := sga_new buf.length
    if sga_is_empty sga then none
    else
      match copy_buf_into_sga buf sga with
      | none => none
      | some (copied, sga2) =>
        some ({ soc with sendElem := sga2, sendBase := ⟨fresh, true⟩ },
              .ok (buf.take copied))
  else none

/-- `maybe_write` (socket_wrapper.c): probe an in-flight push first
(timeout → would-block; completion → `sga_free` the pushed SGA), then
allocate, copy and push. -/
def maybe_write (soc : Socket) (buf : List Nat) (fresh : Nat) (probe : Probe) :
    Option (Socket × CallResult) :=
  if soc.sendBase.pending then
    match probe with
    | .timedOut => some (soc, .wouldBlock)
    | .ok _ =>
      if sga_is_empty soc.sendElem then none -- sga_free asserts non-empty
      else
        maybe_write_push
          { soc with sendElem := ⟨[]⟩, sendBase := ⟨soc.sendBase.tok, false⟩ }
          buf fresh
  else maybe_write_push soc buf fresh

/-- Tail of `maybe_accept` (socket_wrapper.c): consume the stored accept
result — read out qd and address, then `accept_free` (sentinel `-1`,
pending cleared). -/
def accept_consume (s : Socket) : Socket × AcceptOut :=
  ({ s with acceptElem := ⟨-1, s.acceptElem.addr⟩,
            raBase := ⟨s.raBase.tok, false⟩ },
   .res s.acceptElem.qd s.acceptElem.addr)

/-- `maybe_accept` (socket_wrapper.c, the version under lib/src): probe an
in-flight accept (timeout → would-block; completion installs the accept
result when the opcode is ACCEPT, and on FAILED only logs, leaving the
stale payload to be consumed); otherwise submit a `demi_accept` when the
slot is empty; otherwise consume the stored result. -/
def maybe_accept (soc : Socket) (fresh : Nat) (probe : Probe) :
    Option (Socket × AcceptOut) :=
  if soc.raBase.pending then
    match probe with
    | .timedOut => some (soc, .wouldBlock)
    | .ok res =>
      if res.opcode = .accept then
        some (accept_consume { soc with acceptElem := res.ares })
      else if res.opcode = .failed then
        some (accept_consume soc)
      else none
  else if accept_is_empty soc.acceptElem then
    some ({ soc with raBase := ⟨fresh, true⟩ }, .wouldBlock)
  else
    some (accept_consume soc)

/-- `socket_destroy` (socket_wrapper.c), teardown-drain part: the loop
walks `{&soc->send, &soc->recv}` (only the send slot on an accepting
socket) and, **only for a slot whose SGA is non-empty**, blocks on the
slot token when it is pending and then frees the SGA. The function
returns the list of tokens the loop awaits before `demi_close(soc->qd)`
is reached. -/
def socket_destroy_awaited (soc : Socket) : List Nat :=
  let slots := [(soc.sendBase, soc.sendElem), (soc.raBase, soc.recvElem)]
  let used := slots.take (2 - (if socket_is_accepting soc then 1 else 0))
  (used.filterMap fun p =>
    if !sga_is_empty p.2 && p.1.pending then some p.1.tok else none)

/-! ## Readiness computation (impls.h / impls.c) -/

/-- `check_event(_subev, _epoll, _func)` (impls.h):
`((subev & epoll) && func) ? epoll : 0`. -/
def check_event (subev ep : Nat) (f : Bool) : Nat :=
  if subev &&& ep ≠ 0 ∧ f then ep else 0

/-- `available_events` (impls.c). The C function combines the two
`check_event` values with the **logical** operator `||`, so its value is
the C boolean 1 or 0, not a bitwise union of event bits. -/
def available_events (subevs : Nat) (soc : Socket) : Nat :=
  let a := check_event subevs EPOLLIN
            (if socket_is_accepting soc then socket_can_accept soc
             else socket_can_read soc)
  let b := check_event subevs EPOLLOUT (socket_can_write soc)
  if a ≠ 0 ∨ b ≠ 0 then 1 else 0

/-- `DPOLL_DEFAULT_READ_SIZE` (epoll_wrapper.h). -/
def DPOLL_DEFAULT_READ_SIZE : Nat := 1024

/-- Per-item body of `check_and_schedule_evs` (impls.c): compute the
available events, decide whether the item is linked onto the ready list,
and for each subscribed-but-unavailable event make sure an operation is
in flight, collecting its token. The `schedule(...)` macro asserts that
the scheduled call fails with EWOULDBLOCK, and the branch for EPOLLOUT
asserts `soc->send.base.pending`; `none` models these asserts (and the
GIVE_UP in `verify_events`). Returns the updated socket, whether
`list_add_to_head` was invoked for the item, and the collected tokens. -/
def sweep_item (subevs : Nat) (soc : Socket) (fresh : Nat) (probe : Probe) :
    Option (Socket × Bool × List Nat) :=
  let avs := available_events subevs soc
  let linked := avs != 0
  let rem := avs ^^^ subevs
  if rem = 0 then some (soc, linked, [])
  else if !verify_events rem then none
  else
    let inStep : Option (Socket × List Nat) :=
      if rem &&& EPOLLIN ≠ 0 then
        let scheduled : Option Socket :=
          if !soc.raBase.pending then
            if socket_is_accepting soc then
              match maybe_accept soc fresh probe with
              | some (s, .wouldBlock) => some s
              | _ => none
            else
              match maybe_read soc DPOLL_DEFAULT_READ_SIZE fresh probe with
              | some (s, .wouldBlock) => some s
              | _ => none
          else some soc
        match scheduled with
        | none => none
        | some s => if s.raBase.pending then some (s, [s.raBase.tok]) else none
      else some (soc, [])
    match inStep with
    | none => none
    | some (s1, toks1) =>
      if rem &&& EPOLLOUT ≠ 0 then
        if s1.sendBase.pending then some (s1, linked, toks1 ++ [s1.sendBase.tok])
        else none
      else some (s1, linked, toks1)

/-- Timeout selection of `dpoll_pwait_impl` (impls.c): `epoll_timeout`
starts at 0; when no tokens were collected the caller timeout goes to
the kernel `epoll_pwait` unchanged and the backend wait-any is skipped
(`waitAnyArg = none`); when tokens exist, a non-empty ready list forces
the wait-any timeout to 0, and the wait-any argument is a timespec for
non-negative timeouts and NULL (block forever, modelled as
`some none`) otherwise. -/
structure WaitPlan where
  waitAnyArg : Option (Option Timespec)
  epollTimeout : Int
  deriving DecidableEq

def dpoll_pwait_timeouts (tokensLen : Nat) (readyNonempty : Bool)
    (timeout : Int) : WaitPlan :=
  if tokensLen = 0 then ⟨none, timeout⟩
  else
    let t := if readyNonempty then 0 else timeout
    ⟨some (if t ≥ 0 then some (ms_timeout_to_timespec t) else none), 0⟩

/-! ## Intrusive list (internals/list.h)

Nodes are identified by naturals; a state carries the `next` and `prev`
pointer fields of every node plus the `ep->ready_list` head pointer
(`none` is NULL). -/

structure LState where
  next : Nat → Nat
  prev : Nat → Nat
  head : Option Nat

/-- `list_is_empty`: a node is a one-element cycle. -/
def list_is_empty (s : LState) (e : Nat) : Bool := s.next e == e

/-- `list_contains_elem(head, elem)`: `(head == elem) || !list_is_empty(elem)`. -/
def list_contains_elem (s : LState) (e : Nat) : Bool :=
  (s.head == some e) || !(list_is_empty s e)

/-- `list_add(head, new)`: insert `n` right after `h`, with the four
pointer writes performed in source order. -/
def list_add (s : LState) (h n : Nat) : LState :=
  let nxt := s.next h
  let s1 := { s with prev := Function.update s.prev nxt n }
  let s2 := { s1 with next := Function.update s1.next n nxt }
  let s3 := { s2 with prev := Function.update s2.prev n h }
  { s3 with next := Function.update s3.next h n }

/-- `list_add_to_head(&head, new)`: if the head pointer is non-NULL,
`list_add` after the head element (leaving the head pointer alone);
otherwise LIST_HEAD_INIT the node and point the head at it. -/
def list_add_to_head (s : LState) (n : Nat) : LState :=
  match s.head with
  | some h => list_add s h n
  | none =>
    { next := Function.update s.next n n,
      prev := Function.update s.prev n n,
      head := some n }

/-- `list_remove(node)`. -/
def list_remove (s : LState) (n : Nat) : LState :=
  { s with prev := Function.update s.prev (s.next n) (s.prev n),
           next := Function.update s.next (s.prev n) (s.next n) }

/-- The ready-list link performed by the sweep (impls.c,
`check_and_schedule_evs`): unconditional `list_add_to_head`. -/
def sweep_link (s : LState) (n : Nat) : LState := list_add_to_head s n

/-- The ready-list link performed after the backend wait-any
(impls.c, `dpoll_pwait_impl`): guarded by `list_contains_elem`. -/
def harvest_link (s : LState) (n : Nat) : LState :=
  if list_contains_elem s n then s else list_add_to_head s n

/-! ## Epoll items and ctl (epoll_wrapper.h / epoll_wrapper.c) -/

structure EpollItem where
  subevs : Nat
  soc_idx : Nat
  demi_qd : Nat
  data : Nat
  deriving DecidableEq

/-- RB_INSERT into the container sorted by `demi_qd` (compare_items). -/
def items_insert (its : List EpollItem) (it : EpollItem) : List EpollItem :=
  match its with
  | [] => [it]
  | x :: xs =>
    if it.demi_qd < x.demi_qd then it :: x :: xs else x :: items_insert xs it

/-- `ep_find_item` (epoll_wrapper.c): RB_FIND by backend descriptor. -/
def ep_find_item (its : List EpollItem) (qd : Nat) : Option EpollItem :=
  its.find? (fun it => it.demi_qd == qd)

/-- `epoll_add` (epoll_wrapper.c): verify_events (GIVE_UP on failure,
modelled by `none`), then build the item and insert it. -/
def epoll_add (its : List EpollItem) (soc_qd fd : Nat) (evs data : Nat) :
    Option (List EpollItem) :=
  if !verify_events evs then none
  else some (items_insert its ⟨evs, fd, soc_qd, data⟩)

/-- Outcome of `epoll_mod`: the C function returns -1 when the item is
not found, otherwise verifies the mask (GIVE_UP modelled by the outer
`none`) and overwrites `subevs`. -/
inductive CtlOut where
  | err
  | ok (its : List EpollItem)
  deriving DecidableEq

def epoll_mod (its : List EpollItem) (qd : Nat) (evs : Nat) :
    Option CtlOut :=
  match ep_find_item its qd with
  | none => some .err
  | some _ =>
    if !verify_events evs then none
    else some (.ok (its.map fun it =>
      if it.demi_qd == qd then { it with subevs := evs } else it))

/-! ## Slab with embedded free list (internals/buffer.h)

`items` is the `next_free` view of every slot (the socket content of an
allocated slot is irrelevant to the free-list behaviour); `size` and
`next_free` mirror the struct fields. A freshly grown cell is
uninitialised in C and modelled as 0; it is never read before being
written by `free`. -/

structure Buf where
  items : List Int
  size : Nat
  next_free : Int
  deriving DecidableEq

def Buf.empty : Buf := ⟨[], 0, -1⟩

/-- `name##_next` (buffer.h): pop the head of the free list when
non-empty (`next_free > -1`), else grow the storage by one slot and
return the new index. -/
def buf_next (b : Buf) : Buf × Nat :=
  if b.next_free > -1 then
    let fd := b.next_free.toNat
    ({ b with next_free := b.items.getD fd 0 }, fd)
  else
    ({ items := b.items ++ [0], size := b.size + 1, next_free := b.next_free },
     b.size)

/-- `name##_free` (buffer.h), translated literally: when the current
`next_free` head is any nonzero value (including the empty sentinel
`-1`) the freed slot becomes the head with its chain field set to `-1`;
only when the head is the index 0 is the freed slot prepended keeping
the old head in its chain field. -/
def buf_free (b : Buf) (fd : Nat) : Buf :=
  if b.next_free ≠ 0 then
    { b with items := b.items.set fd (-1), next_free := (fd : Int) }
  else
    { b with items := b.items.set fd b.next_free, next_free := (fd : Int) }

/-! ## Public wrappers (wrappers.c / impls.c) -/

def AF_INET : Nat := 2
def SOCK_STREAM : Nat := 1

/-- `dpoll_socket_impl` (impls.c), success path: allocate a slab slot
(`soc_buf_next`) and initialise the socket (the backend `demi_socket`
succeeding); returns the slab index. -/
def dpoll_socket_impl (b : Buf) : Buf × Nat := buf_next b

/-- `dpoll_socket` (wrappers.c): on an AF_INET/SOCK_STREAM request,
`dpoll_socket_impl(...) + DPOLL_SOCKET_OFFSET`; otherwise the kernel
`socket(2)` result (`ksock`) is passed through. -/
def dpoll_socket (b : Buf) (domain ty : Nat) (ksock : Int) : Buf × Int :=
  if domain = AF_INET ∧ ty = SOCK_STREAM then
    let (b2, fd) := dpoll_socket_impl b
    (b2, (fd : Int) + DPOLL_SOCKET_OFFSET)
  else (b, ksock)

/-- `dpoll_accept_impl` (impls.c): asserts accepting mode, runs
`maybe_accept` on the listener (would-block propagates as -1), and on
success allocates a fresh handle via `dpoll_socket_impl`, stores the
accepted backend descriptor in it, and returns the slab index `fd`. -/
def dpoll_accept_impl (listener : Socket) (b : Buf) (fresh : Nat)
    (probe : Probe) : Option (Socket × Buf × Int) :=
  if socket_is_accepting listener then
    match maybe_accept listener fresh probe with
    | none => none
    | some (s, .wouldBlock) => some (s, b, -1)
    | some (s, .res _ _) =>
      let (b2, fd) := dpoll_socket_impl b
      some (s, b2, (fd : Int))
  else none

/-- `dpoll_accept` (wrappers.c): bypass handles go to
`dpoll_accept_impl` and its result is returned **unchanged** (no
`DPOLL_SOCKET_OFFSET` is added, unlike `dpoll_socket`); kernel handles
go to `accept(2)` (`kaccept`). -/
def dpoll_accept (listener : Socket) (b : Buf) (qd : Int) (fresh : Nat)
    (probe : Probe) (kaccept : Int) : Option (Socket × Buf × Int) :=
  if qd_is_dpoll qd then dpoll_accept_impl listener b fresh probe
  else some (listener, b, kaccept)

/-- Modelled from the spec: the payload a completed push carries in
`qr_value`. The backend (demikernel) implementation is not under src/
(only its C header, which declares the `qr_value` union). Spec §4.4 and
scenario 3 of §8 state that after the push completion is harvested the
socket reports `can_write` / EPOLLOUT again, and `socket_can_write`
requires an empty send SGA, so the installed payload is the empty
scatter-gather array. -/
def push_completion_sga : Sga := ⟨[]⟩

/-! ## Concrete fixtures used by the evaluations below -/

/-- A connected-mode socket with all three slots idle and empty
(`can_write` holds, `can_read` does not). -/
def socIdle : Socket :=
  { qd := 3, addr := 0, sendBase := ⟨0, false⟩, sendElem := ⟨[]⟩,
    recv_off := 0, raBase := ⟨0, false⟩, recvElem := ⟨[]⟩,
    acceptElem := ⟨-1, 0⟩ }

/-- A connected-mode socket with a buffered recv SGA and an idle send
slot (`can_read` and `can_write` both hold). -/
def socReadableWritable : Socket := { socIdle with recvElem := ⟨[[9]]⟩ }

/-- A connected-mode socket with an in-flight push (token 5) whose SGA is
the pushed buffer. -/
def socPushing : Socket :=
  { socIdle with qd := 2, sendBase := ⟨5, true⟩, sendElem := ⟨[[1, 2, 3]]⟩ }

/-- The backend completion for the push of `socPushing` (token 5). -/
def pushRes : Qresult := ⟨.push, 2, 5, 0, push_completion_sga, ⟨-1, 0⟩⟩

/-- A connected-mode socket with an in-flight pop (token 9) and, as
always while a pop is outstanding, an empty recv SGA. -/
def socPopping : Socket := { socIdle with qd := 4, raBase := ⟨9, true⟩ }

/-- An accepting-mode socket with an in-flight accept (token 11). -/
def socAcceptPending : Socket :=
  { socIdle with qd := 6, recv_off := -1, raBase := ⟨11, true⟩ }

/-- An accepting-mode listener holding a completed, unconsumed accept
result (backend descriptor 9, peer address 7). -/
def listenerReady : Socket :=
  { socIdle with qd := 0, recv_off := -1, acceptElem := ⟨9, 7⟩ }

/-- A socket slab holding exactly the listener at index 0, free list
empty. -/
def bufOne : Buf := ⟨[0], 1, -1⟩

/-- A two-node circular ready list: nodes 0 and 1, head pointing at 0. -/
def twoNodeList : LState :=
  { next := fun n => if n = 0 then 1 else if n = 1 then 0 else n,
    prev := fun n => if n = 0 then 1 else if n = 1 then 0 else n,
    head := some 0 }

/-- Byte length of a segment list. -/
def segsLen (segs : List (List Nat)) : Nat := (segs.map List.length).sum

/-- All stored subscription masks are subsets of `EPOLLIN | EPOLLOUT`. -/
def items_clean (its : List EpollItem) : Prop :=
  ∀ it ∈ its, it.subevs &&& NOT_IN_OUT = 0

/-! ## Helper lemmas -/

/-- The copy loop of `copy_sga_into_buf` delivers exactly the bytes of
the flattened SGA from `off`, clamped to `rem`, and its flag is `true`
exactly when nothing remained past `off` or strictly fewer bytes
remained than were requested. -/
theorem copy_sga_loop_spec (segs : List (List Nat)) :
    ∀ rem off : Nat,
      (copy_sga_loop segs rem off).1 = (segs.flatten.drop off).take rem ∧
      ((copy_sga_loop segs rem off).2 = true ↔
        segsLen segs - off = 0 ∨ rem > segsLen segs - off) := by
  induction segs with
  | nil =>
    intro rem off
    simp [copy_sga_loop, segsLen]
  | cons seg rest ih =>
    intro rem off
    have hflat : (seg :: rest).flatten = seg ++ rest.flatten := by simp
    have hslen : segsLen (seg :: rest) = seg.length + segsLen rest := by
      simp [segsLen]
    by_cases hoff : off ≥ seg.length
    · have hmain := ih rem (off - seg.length)
      have hdrop : ((seg :: rest).flatten).drop off =
          rest.flatten.drop (off - seg.length) := by
        rw [hflat, List.drop_append_eq_append_drop,
            List.drop_eq_nil_of_le hoff, List.nil_append]
      rw [copy_sga_loop, if_pos hoff, hdrop]
      refine ⟨hmain.1, ?_⟩
      rw [hmain.2, hslen]
      omega
    · push_neg at hoff
      have hdrop : ((seg :: rest).flatten).drop off =
          seg.drop off ++ rest.flatten := by
        rw [hflat, List.drop_append_eq_append_drop,
            (by omega : off - seg.length = 0), List.drop_zero]
      have hdlen : (seg.drop off).length = seg.length - off :=
        List.length_drop off seg
      rw [copy_sga_loop, if_neg (by omega : ¬ off ≥ seg.length)]
      by_cases hrem : rem - min rem (seg.length - off) = 0
      · -- early return: the request fits inside this segment
        have hmin : min rem (seg.length - off) = rem := by omega
        rw [if_pos hrem, hmin, hdrop, List.take_append_eq_append_take]
        have h2 : rem - (seg.drop off).length = 0 := by omega
        refine ⟨by rw [h2, List.take_zero, List.append_nil], ?_⟩
        simp only [Bool.false_eq_true, false_iff]
        rw [hslen]
        omega
      · -- the request spills into the following segments
        have hmin : min rem (seg.length - off) = seg.length - off := by
          omega
        have hmain := ih (rem - (seg.length - off)) 0
        rw [if_neg hrem, hmin, hdrop]
        constructor
        · rw [hmain.1, List.drop_zero, List.take_append_eq_append_take]
          have hchunk : (seg.drop off).take (seg.length - off) =
              seg.drop off := List.take_of_length_le (by omega)
          have hfull : (seg.drop off).take rem = seg.drop off :=
            List.take_of_length_le (by omega)
          rw [hchunk, hfull, hdlen]
        · rw [hmain.2, hslen]
          omega

/-- Filling the single freshly allocated segment of a write-sized SGA
with the write buffer copies the whole buffer. -/
theorem copy_buf_loop_exact (buf : List Nat) :
    copy_buf_loop buf 0 [List.replicate buf.length 0] =
      some (buf.length, [buf]) := by
  by_cases h : 0 < buf.length
  · rw [copy_buf_loop, if_pos h]
    simp only [List.length_replicate, Nat.sub_zero, min_self,
      List.drop_zero, List.take_length, List.drop_replicate, Nat.sub_self,
      List.replicate_zero, List.append_nil]
    rw [copy_buf_loop, if_neg (by omega)]
    simp
  · rw [copy_buf_loop, if_neg h]
    have hb : buf = [] := List.length_eq_zero.mp (by omega)
    simp [hb]

/-- `items_insert` preserves cleanliness of the stored masks. -/
theorem items_insert_clean (its : List EpollItem) (it : EpollItem)
    (h1 : items_clean its) (h2 : it.subevs &&& NOT_IN_OUT = 0) :
    items_clean (items_insert its it) := by
  induction its with
  | nil =>
    intro x hx
    simp [items_insert] at hx
    simp [hx, h2]
  | cons y ys ih =>
    have hy : y.subevs &&& NOT_IN_OUT = 0 := h1 y (by simp)
    have hys : items_clean ys := fun x hx => h1 x (by simp [hx])
    intro x hx
    rw [items_insert] at hx
    by_cases hc : it.demi_qd < y.demi_qd
    · rw [if_pos hc] at hx
      simp only [List.mem_cons] at hx
      rcases hx with hx | hx | hx
      · simp [hx, h2]
      · simp [hx, hy]
      · exact hys x hx
    · rw [if_neg hc] at hx
      simp only [List.mem_cons] at hx
      rcases hx with hx | hx
      · simp [hx, hy]
      · exact ih hys x hx

/-! ## Claim theorems -/

/-- C1 (code bug): `available_events` is claimed to return the bitwise
intersection of the subscribed mask with the available-event set. The
code combines the two `check_event` values with the logical `||`, so on
an item subscribed only to EPOLLOUT whose socket can write it returns
the C boolean 1 (the EPOLLIN bit) instead of EPOLLOUT = 4, and on an
item subscribed to both events with both predicates true it returns 1
instead of EPOLLIN | EPOLLOUT = 5. -/
theorem c1_available_events_logical_or :
    available_events EPOLLOUT socIdle = 1 ∧ (1 : Nat) ≠ EPOLLOUT ∧
    available_events (EPOLLIN ||| EPOLLOUT) socReadableWritable = 1 ∧
    (1 : Nat) ≠ (EPOLLIN ||| EPOLLOUT) ∧
    socket_can_write socIdle = true ∧
    socket_can_read socReadableWritable = true ∧
    socket_can_write socReadableWritable = true := by decide

/-- C2 (code bug): `dpoll_accept` forwards the slab index returned by
`dpoll_accept_impl` without adding `DPOLL_SOCKET_OFFSET` (unlike
`dpoll_socket`, evaluated alongside): accepting on the ready listener
registered at slab index 0 yields the caller handle 1, which is not in
the bypass-socket range and is classified as a kernel descriptor. -/
theorem c2_accept_handle_outside_socket_range :
    dpoll_accept listenerReady bufOne DPOLL_SOCKET_OFFSET 5 .timedOut 0 =
      some ({ listenerReady with acceptElem := ⟨-1, 7⟩ }, ⟨[0, 0], 2, -1⟩, 1) ∧
    qd_is_dpoll 1 = false ∧ (1 : Int) < DPOLL_SOCKET_OFFSET ∧
    (dpoll_socket Buf.empty AF_INET SOCK_STREAM 0).2 = DPOLL_SOCKET_OFFSET := by
  decide

/-- C3 (code bug): harvesting the push completion of `socPushing` through
`socket_handle_event` does make `can_write` true (with the push payload
modelled from the spec as empty), but the next wait does not report
EPOLLOUT: `available_events` on the EPOLLOUT-subscribed item evaluates
to 1 (the EPOLLIN bit) rather than EPOLLOUT, and the following sweep of
that item hits the `assert(soc->send.base.pending)` on the now idle
send slot (modelled by `sweep_item = none`), aborting the process. -/
theorem c3_push_completion_no_epollout :
    (socket_handle_event socPushing pushRes).map socket_can_write =
      some true ∧
    (socket_handle_event socPushing pushRes).map
      (available_events EPOLLOUT) = some 1 ∧
    (1 : Nat) ≠ EPOLLOUT ∧
    (socket_handle_event socPushing pushRes).bind
      (fun s => sweep_item EPOLLOUT s 7 .timedOut) = none := by decide

/-- C4 (code bug): `socket_destroy` only waits on a pending token when
the same slot also holds a **non-empty** SGA; a socket closed while a
pop is in flight has a pending recv token and an empty recv SGA, so the
drain loop awaits nothing and `demi_close` runs with the token still
outstanding. The same holds for an accepting socket with an in-flight
accept, whose slot the loop does not even visit. -/
theorem c4_pending_pop_not_drained :
    socket_destroy_awaited socPopping = [] ∧
    socPopping.raBase.pending = true ∧
    socket_is_accepting socPopping = false ∧
    socket_destroy_awaited socAcceptPending = [] ∧
    socAcceptPending.raBase.pending = true := by decide

/-- C5 (counterexample): copying exactly the remaining bytes of the SGA
(buffer length 3, one segment of 3 bytes, offset 0) advances the offset
to the total length — the SGA is fully drained — yet the function
returns `false`, refuting the claimed "returns true iff drained". -/
theorem c5_exact_drain_reports_not_drained :
    copy_sga_into_buf 3 ⟨[[10, 20, 30]]⟩ 0 = ([10, 20, 30], 3, false) ∧
    Sga.total ⟨[[10, 20, 30]]⟩ = 3 := by decide

/-- C5 (amended, proved): `copy_sga_into_buf` delivers the next
`min(buf_len, total - offset)` bytes of the flattened SGA and advances
the offset by exactly that count, but its boolean result is `true` iff
the SGA was already drained on entry or `buf_len` strictly exceeds the
remaining bytes — an exact consumption of the last byte returns
`false`, and only the following call reports the drained state. Two
successive reads of `k` and of at least `n - k` bytes against an SGA of
total length `n` still deliver `k` and `n - k` bytes for every split
`k ∈ [0, n]`. -/
theorem c5_copy_from_sga_characterised (buf_len off : Nat) (sga : Sga)
    (k m : Nat) (hk : k ≤ sga.total) (hm : sga.total - k ≤ m) :
    (copy_sga_into_buf buf_len sga off).1 =
      (sga.segs.flatten.drop off).take buf_len ∧
    (copy_sga_into_buf buf_len sga off).2.1 =
      off + min buf_len (sga.total - off) ∧
    ((copy_sga_into_buf buf_len sga off).2.2 = true ↔
      sga.total - off = 0 ∨ buf_len > sga.total - off) ∧
    (copy_sga_into_buf k sga 0).1.length = k ∧
    (copy_sga_into_buf m sga k).1.length = sga.total - k := by
  have hlen : ∀ rem o : Nat,
      (copy_sga_into_buf rem sga o).1.length = min rem (sga.total - o) := by
    intro rem o
    have h := (copy_sga_loop_spec sga.segs rem o).1
    simp only [copy_sga_into_buf] at h ⊢
    rw [h, List.length_take, List.length_drop]
    simp [Sga.total, List.length_flatten]
  refine ⟨?_, ?_, ?_, ?_, ?_⟩
  · exact (copy_sga_loop_spec sga.segs buf_len off).1
  · simp only [copy_sga_into_buf]
    have h := hlen buf_len off
    simp only [copy_sga_into_buf] at h
    rw [h]
  · have h := (copy_sga_loop_spec sga.segs buf_len off).2
    simp only [copy_sga_into_buf]
    rw [h]
    have : segsLen sga.segs = sga.total := rfl
    rw [this]
  · rw [hlen k 0]; omega
  · rw [hlen m k]; omega

/-- Witness for `c5_copy_from_sga_characterised`: the two-read split of
a 3-byte SGA at k = 1 delivers 1 and then 2 bytes. -/
theorem c5_copy_from_sga_witness :
    (copy_sga_into_buf 1 ⟨[[10, 20, 30]]⟩ 0).1.length = 1 ∧
    (copy_sga_into_buf 2 ⟨[[10, 20, 30]]⟩ 1).1.length = 2 := by
  have h := c5_copy_from_sga_characterised 2 1 ⟨[[10, 20, 30]]⟩ 1 2
    (by decide) (by decide)
  exact ⟨h.2.2.2.1, by simpa [Sga.total] using h.2.2.2.2⟩

/-- C6 (counterexample): starting from an empty slab, allocate indices
0, 1, 2, then free 1 and free 2. Freeing 2 while the free-list head is
the nonzero index 1 truncates the chain (the freed slot stores -1, not
the old head), so the next allocations return 2 and then grow the slab
to size 4 — index 1 is never handed out again: deallocation did not
prepend, a free slot is permanently lost, and allocation did not return
the smallest free index (1). -/
theorem c6_free_list_truncation :
    (buf_next Buf.empty).2 = 0 ∧
    (buf_next (buf_next Buf.empty).1).2 = 1 ∧
    (buf_next (buf_next (buf_next Buf.empty).1).1).2 = 2 ∧
    (let b3 := (buf_next (buf_next (buf_next Buf.empty).1).1).1
     let bf := buf_free (buf_free b3 1) 2
     bf.items.getD 2 0 = -1 ∧
     (buf_next bf).2 = 2 ∧
     (buf_next (buf_next bf).1).2 = 3 ∧
     (buf_next (buf_next bf).1).1.size = 4 ∧
     b3.size = 3) := by decide

/-- C6 (amended, proved): deallocation always makes the freed index the
new head of the free list (so a free followed by an allocation returns
exactly the freed index and never grows the slab), but the freed slot
keeps the old head in its chain field only when that head is index 0;
for any other head value (including the empty sentinel -1) the chain
field is set to -1, truncating the remainder of the free list.
Allocation pops the head — most recently freed first — rather than the
smallest free index. -/
theorem c6_slab_free_then_alloc (b : Buf) (fd : Nat)
    (hfd : fd < b.size) (hlen : b.items.length = b.size) :
    (buf_free b fd).next_free = (fd : Int) ∧
    (buf_free b fd).size = b.size ∧
    (buf_free b fd).items.getD fd 0 =
      (if b.next_free ≠ 0 then (-1 : Int) else b.next_free) ∧
    (buf_next (buf_free b fd)).2 = fd ∧
    (buf_next (buf_free b fd)).1.size = b.size := by
  have hlt : fd < b.items.length := by omega
  have hget : ∀ v : Int, (b.items.set fd v)[fd]? = some v := fun v =>
    List.getElem?_set_eq_of_lt v hlt
  have hpos : ((fd : Int) > -1) := by omega
  by_cases h0 : b.next_free ≠ 0
  · refine ⟨by simp [buf_free, h0], by simp [buf_free, h0], ?_, ?_, ?_⟩
    · simp [buf_free, h0, hget]
    · simp [buf_next, buf_free, h0, hpos]
    · simp [buf_next, buf_free, h0, hpos]
  · refine ⟨by simp [buf_free, h0], by simp [buf_free, h0], ?_, ?_, ?_⟩
    · simp [buf_free, h0, hget]
    · simp [buf_next, buf_free, h0, hpos]
    · simp [buf_next, buf_free, h0, hpos]

/-- Witness for `c6_slab_free_then_alloc`: freeing index 0 of a
two-slot slab and allocating again returns 0 without growth. -/
theorem c6_slab_free_then_alloc_witness :
    (buf_next (buf_free ⟨[7, 8], 2, -1⟩ 0)).2 = 0 ∧
    (buf_next (buf_free ⟨[7, 8], 2, -1⟩ 0)).1.size = 2 := by
  have h := c6_slab_free_then_alloc ⟨[7, 8], 2, -1⟩ 0 (by decide) (by decide)
  exact ⟨h.2.2.2.1, h.2.2.2.2⟩

/-- C7 (counterexample): the sweep links unconditionally. Re-linking
node 0, which is already a member (indeed the entry element) of the
two-node ready list {0, 1}, rewrites its pointers to a self-loop: the
resulting state differs from the original and node 1, though its own
pointers still make it look linked, is detached from the cycle of the
head — the ready list is changed, not left unchanged. -/
theorem c7_sweep_relink_changes_ready_list :
    list_contains_elem twoNodeList 0 = true ∧
    twoNodeList.next 0 = 1 ∧
    (sweep_link twoNodeList 0).next 0 = 0 ∧
    (sweep_link twoNodeList 0).prev 0 = 0 ∧
    list_is_empty (sweep_link twoNodeList 0) 1 = false ∧
    sweep_link twoNodeList 0 ≠ twoNodeList := by
  refine ⟨by decide, rfl, ?_, ?_, ?_, ?_⟩
  · simp [sweep_link, list_add_to_head, list_add, twoNodeList,
      Function.update]
  · simp [sweep_link, list_add_to_head, list_add, twoNodeList,
      Function.update]
  · simp [list_is_empty, sweep_link, list_add_to_head, list_add,
      twoNodeList, Function.update]
  · intro h
    have h2 := congrArg (fun s => s.next 0) h
    simp [sweep_link, list_add_to_head, list_add, twoNodeList,
      Function.update] at h2

/-- C7 (amended, proved): the membership-guarded link exists only at the
completion-harvest site of the wait, where an already-linked item is
skipped and the ready list is left unchanged; for an item not on the
list the harvest link and the sweep link perform the same
`list_add_to_head`, and on an empty ready list the link initialises
the node as the singleton head. The sweep itself links without the
guard (see the counterexample). -/
theorem c7_harvest_link_guard (s : LState) (e : Nat) :
    (list_contains_elem s e = true → harvest_link s e = s) ∧
    (list_contains_elem s e = false → harvest_link s e = sweep_link s e) ∧
    (s.head = none →
      (sweep_link s e).next e = e ∧ (sweep_link s e).prev e = e ∧
      (sweep_link s e).head = some e) := by
  refine ⟨fun h => by simp [harvest_link, h],
          fun h => by simp [harvest_link, sweep_link, h], fun h => ?_⟩
  simp [sweep_link, list_add_to_head, h, Function.update]

/-- Witness for `c7_harvest_link_guard`: the guarded link on an
already-linked member of the two-node list is a no-op. -/
theorem c7_harvest_link_guard_witness :
    harvest_link twoNodeList 0 = twoNodeList :=
  (c7_harvest_link_guard twoNodeList 0).1 (by decide)

/-- C8 (counterexample): with a non-empty ready list after the sweep but
no collected tokens (every subscribed event already available), the
caller timeout — 5000 ms, or infinite (-1) — is forwarded to the
kernel `epoll_pwait` unchanged instead of being coerced to 0. -/
theorem c8_no_tokens_ready_full_timeout :
    dpoll_pwait_timeouts 0 true 5000 = ⟨none, 5000⟩ ∧
    (5000 : Int) ≠ 0 ∧
    dpoll_pwait_timeouts 0 true (-1) = ⟨none, -1⟩ := by decide

/-- C8 (amended, proved): when tokens were collected and the ready list
is non-empty the backend wait-any receives the zero timespec regardless
of the caller timeout (and the kernel epoll wait keeps timeout 0), but
when no tokens were collected the kernel epoll wait receives the full
caller timeout even though deliverable events exist. -/
theorem c8_ready_nonempty_timeout (tl : Nat) (t : Int) (h : tl ≠ 0) :
    dpoll_pwait_timeouts tl true t = ⟨some (some ⟨0, 0⟩), 0⟩ ∧
    dpoll_pwait_timeouts 0 true t = ⟨none, t⟩ := by
  constructor
  · simp [dpoll_pwait_timeouts, h, ms_timeout_to_timespec]
  · simp [dpoll_pwait_timeouts]

/-- Witness for `c8_ready_nonempty_timeout` at one token and a 7 ms
caller timeout. -/
theorem c8_ready_nonempty_timeout_witness :
    dpoll_pwait_timeouts 1 true 7 = ⟨some (some ⟨0, 0⟩), 0⟩ ∧
    dpoll_pwait_timeouts 0 true 7 = ⟨none, 7⟩ :=
  c8_ready_nonempty_timeout 1 7 (by decide)

/-- C9 (counterexample): a `write` on an idle socket — the operation is
newly submitted to the backend — returns the number of bytes copied
(3), not -1 with EWOULDBLOCK. -/
theorem c9_new_write_returns_byte_count :
    maybe_write socIdle [1, 2, 3] 8 .timedOut =
      some ({ socIdle with sendElem := ⟨[[1, 2, 3]]⟩,
                           sendBase := ⟨8, true⟩ }, .ok [1, 2, 3]) ∧
    CallResult.ok [1, 2, 3] ≠ CallResult.wouldBlock := by decide

/-- C9 (amended, proved): `read` and `accept` return -1/EWOULDBLOCK both
when the operation is newly submitted (leaving the fresh token pending
in the slot) and when the zero-timeout probe of an in-flight operation
times out (leaving the slot untouched); `write` returns
-1/EWOULDBLOCK only in the probe-timeout case — a newly submitted
write instead copies the buffer into a fresh SGA, submits the push and
returns the byte count. -/
theorem c9_transient_returns (soc : Socket) (len fresh : Nat)
    (buf : List Nat) (p : Probe) :
    (sga_is_empty soc.recvElem = true → soc.raBase.pending = false →
      maybe_read soc len fresh p =
        some ({ soc with raBase := ⟨fresh, true⟩ }, .wouldBlock)) ∧
    (soc.raBase.pending = true →
      maybe_read soc len fresh .timedOut = some (soc, .wouldBlock)) ∧
    (soc.raBase.pending = false → accept_is_empty soc.acceptElem = true →
      maybe_accept soc fresh p =
        some ({ soc with raBase := ⟨fresh, true⟩ }, .wouldBlock)) ∧
    (soc.raBase.pending = true →
      maybe_accept soc fresh .timedOut = some (soc, .wouldBlock)) ∧
    (soc.sendBase.pending = true →
      maybe_write soc buf fresh .timedOut = some (soc, .wouldBlock)) ∧
    (soc.sendBase.pending = false → sga_is_empty soc.sendElem = true →
      maybe_write soc buf fresh p =
        some ({ soc with sendElem := ⟨[buf]⟩, sendBase := ⟨fresh, true⟩ },
              .ok buf)) := by
  refine ⟨fun h1 h2 => ?_, fun h => ?_, fun h1 h2 => ?_, fun h => ?_,
          fun h => ?_, fun h1 h2 => ?_⟩
  · simp [maybe_read, h1, h2]
  · simp [maybe_read, h]
  · simp [maybe_accept, h1, h2]
  · simp [maybe_accept, h]
  · simp [maybe_write, h]
  · have h3 : sga_is_empty (sga_new buf.length) = false := by
      simp [sga_new, demi_sgaalloc, sga_is_empty, Sga.numsegs]
    have h4 : (sga_new buf.length).segs = [List.replicate buf.length 0] := rfl
    simp [maybe_write, maybe_write_push, h1, h2, h3, h4,
      copy_buf_into_sga, copy_buf_loop_exact, List.take_length]

/-- Witness for `c9_transient_returns`: the in-flight-pop and
in-flight-accept probe timeouts surface EWOULDBLOCK with the slots left
in place. -/
theorem c9_transient_returns_witness :
    maybe_read socPopping 5 1 .timedOut = some (socPopping, .wouldBlock) ∧
    maybe_accept socAcceptPending 1 .timedOut =
      some (socAcceptPending, .wouldBlock) :=
  ⟨(c9_transient_returns socPopping 5 1 [] .timedOut).2.1 rfl,
   (c9_transient_returns socAcceptPending 1 1 [] .timedOut).2.2.2.1 rfl⟩

/-- C10 (confirmed): `epoll_ctl` ADD aborts (GIVE_UP in `verify_events`)
whenever the requested mask carries any bit outside
EPOLLIN | EPOLLOUT, and MOD never stores such a mask either (it aborts
when the item exists and reports an error when it does not); both
operations preserve the invariant that every stored item subscribes
only within EPOLLIN | EPOLLOUT. -/
theorem c10_epoll_ctl_masks_verified (its : List EpollItem)
    (qd fd evs data : Nat) :
    (evs &&& NOT_IN_OUT ≠ 0 →
      epoll_add its qd fd evs data = none ∧
      ∀ out, epoll_mod its qd evs = some out → out = .err) ∧
    (∀ l, epoll_add its qd fd evs data = some l →
      items_clean its → items_clean l) ∧
    (∀ l, epoll_mod its qd evs = some (.ok l) →
      items_clean its → items_clean l) := by
  refine ⟨fun h => ⟨?_, ?_⟩, fun l hl hc => ?_, fun l hl hc => ?_⟩
  · simp [epoll_add, verify_events, h]
  · intro out hout
    rw [epoll_mod] at hout
    cases hfind : ep_find_item its qd with
    | none => rw [hfind] at hout; simpa using hout.symm
    | some it =>
      rw [hfind] at hout
      simp [verify_events, h] at hout
  · rw [epoll_add] at hl
    by_cases hv : verify_events evs
    · rw [if_neg (by simp [hv])] at hl
      have hevs : evs &&& NOT_IN_OUT = 0 := by
        simpa [verify_events] using hv
      cases hl
      exact items_insert_clean its _ hc hevs
    · rw [if_pos (by simp [hv])] at hl
      cases hl
  · rw [epoll_mod] at hl
    cases hfind : ep_find_item its qd with
    | none => rw [hfind] at hl; simp at hl
    | some it =>
      rw [hfind] at hl
      by_cases hv : verify_events evs
      · rw [if_neg (by simp [hv])] at hl
        have hevs : evs &&& NOT_IN_OUT = 0 := by
          simpa [verify_events] using hv
        have hl2 : (its.map fun x =>
            if x.demi_qd == qd then { x with subevs := evs } else x) = l := by
          simpa using hl
        intro x hx
        rw [← hl2] at hx
        rcases List.mem_map.mp hx with ⟨y, hy, hxy⟩
        by_cases hq : y.demi_qd == qd
        · rw [if_pos hq] at hxy
          simp [← hxy, hevs]
        · rw [if_neg hq] at hxy
          exact hxy ▸ hc y hy
      · rw [if_pos (by simp [hv])] at hl
        cases hl

/-- Witness for `c10_epoll_ctl_masks_verified`: adding a subscription
with mask EPOLLIN | EPOLLERR = 0x9 aborts. -/
theorem c10_epoll_ctl_masks_witness :
    epoll_add [] 3 0 9 0 = none :=
  ((c10_epoll_ctl_masks_verified [] 3 0 9 0).1 (by decide)).1

end DemiEpoll
